import Mathlib

/-!
Shallow embedding of the auction lifecycle and bid-arbitration engine of the
repository.  Sources embedded:

* `src/services/auctionService.js` — the socket/engine path (`placeBid`,
  `endAuction`, `startAuction`, `checkAuctionStatus`, `setupAutoBid`,
  `processAutoBids`, `calculateMinBid`, `calculateNextBid`,
  `getWinningBid`, `createTransaction`);
* `src/backend/routes/bids.js` — the REST bid-placement handler (`POST /`);
* `src/config/database.js` — the `auctions` / `bids` / `users` table shapes.

JavaScript numbers are embedded as exact integers: monetary amounts as `Nat`
(the columns are `BIGINT`), instants as `Int` milliseconds since the epoch.
`Math.ceil(p * (pct / 100))` on these integer inputs is embedded as the exact
ceiling `(p * pct + 99) / 100`, and `Math.floor(p * 0.05)` as `p * 5 / 100`.
The state models one auction row together with its bids, the in-memory
auto-bid registry, and the `transactions` rows inserted for it (all the
operations under verification touch a single auction; spec §5 serialises
mutations per auction).
-/

/-- `auctions.status` enum from `src/config/database.js`. -/
inductive AuctionStatus where
  | scheduled
  | live
  | ended
  | cancelled
  | suspended
deriving DecidableEq

/-- `auctions.result` enum from `src/config/database.js`. -/
inductive AuctionResult where
  | noBids
  | reserveNotMet
  | sold
  | withdrawn
deriving DecidableEq

/-- `bids.bid_type` enum from `src/config/database.js`. -/
inductive BidType where
  | normal
  | proxy
  | auto
deriving DecidableEq

/-- `users.status` enum from `src/config/database.js`. -/
inductive UserStatus where
  | active
  | suspended
  | banned
  | pending
deriving DecidableEq

/-- One row of the `bids` table (the columns the engine reads or writes). -/
structure Bid where
  id : Nat
  userId : Nat
  amount : Nat
  maxAmount : Nat
  bidType : BidType
  isWinning : Bool
deriving DecidableEq

/-- One row of the `auctions` table (the columns the engine reads or writes).
`extendedEndTime` is `NULL` at creation (`extended_end_time TIMESTAMP NULL`). -/
structure Auction where
  status : AuctionStatus
  startTime : Int
  endTime : Int
  extendedEndTime : Option Int
  startingPrice : Nat
  reservePrice : Nat
  currentPrice : Nat
  bidIncrementPercentage : Nat
  currentBidCount : Nat
  autoExtendEnabled : Bool
  autoExtendMinutes : Nat
  result : Option AuctionResult
  winningBidId : Option Nat
  endedAt : Option Int
deriving DecidableEq

/-- The `users` columns consulted on the bid paths. -/
structure User where
  id : Nat
  status : UserStatus
  identityVerified : Bool
deriving DecidableEq

/-- One entry of the in-memory `this.autoBids` map of `AuctionService`
(key `auto_<auctionId>_<userId>`; entries of the modelled auction). -/
structure AutoBid where
  userId : Nat
  maxAmount : Nat
  currentBid : Nat
  active : Bool
deriving DecidableEq

/-- One row of the `transactions` table as inserted by `createTransaction`. -/
structure Transaction where
  userId : Nat
  auctionId : Nat
  bidId : Nat
  amount : Nat
  commissionAmount : Nat
  totalAmount : Nat
deriving DecidableEq

/-- The engine state for one auction: its row, its bids in `created_at`
(insertion) order, the auto-bid registry entries for it, the settlement
transactions inserted for it, the user table, and the `AUTO_INCREMENT`
cursor of the `bids` table. -/
structure EngineState where
  auctionId : Nat
  auction : Auction
  bids : List Bid
  autoBids : List AutoBid
  transactions : List Transaction
  users : List User
  nextBidId : Nat
deriving DecidableEq

/-- `calculateMinBid(currentPrice, incrementPercentage)`:
`currentPrice + Math.ceil(currentPrice * (incrementPercentage / 100))`. -/
def calculateMinBid (currentPrice pct : Nat) : Nat :=
  currentPrice + (currentPrice * pct + 99) / 100

/-- `calculateNextBid(currentPrice)`:
`currentPrice + Math.ceil(currentPrice * 0.05)`. -/
def calculateNextBid (currentPrice : Nat) : Nat :=
  currentPrice + (currentPrice * 5 + 99) / 100

/-- `new Date(auction.extended_end_time || auction.end_time)`: the end time
the engine actually compares against. -/
def Auction.effectiveEnd (a : Auction) : Int :=
  a.extendedEndTime.getD a.endTime

/-- `getWinningBid`: `WHERE is_winning = TRUE ORDER BY created_at DESC
LIMIT 1` — the most recently inserted bid flagged winning. -/
def getWinningBid (bids : List Bid) : Option Bid :=
  (bids.filter (fun b => b.isWinning)).getLast?

/-- `getUserDetails`: `WHERE id = ? AND status = 'active'`. -/
def getUserDetails (users : List User) (userId : Nat) : Option User :=
  users.find? (fun u => u.id == userId && u.status == UserStatus.active)

/-- The two flag updates both bid paths run inside their transaction:
`UPDATE bids SET is_winning = FALSE WHERE auction_id = ? AND id != ?`
followed by `UPDATE bids SET is_winning = TRUE WHERE id = ?`. -/
def markWinning (bidId : Nat) (bids : List Bid) : List Bid :=
  (bids.map (fun b => if b.id ≠ bidId then { b with isWinning := false } else b)).map
    (fun b => if b.id = bidId then { b with isWinning := true } else b)

/-- The arguments `placeBid` destructures from `bidData`. -/
structure BidData where
  userId : Nat
  amount : Nat
  maxAmount : Nat
  bidType : BidType
deriving DecidableEq

/-- The errors `placeBid` throws (`'Auction is not active'`,
``Bid must be at least <minBid>``, `'User not found'`). -/
inductive PlaceBidError where
  | auctionNotActive
  | bidTooLow (minBid : Nat)
  | userNotFound
deriving DecidableEq

/-- The row `INSERT INTO bids ...` creates in `placeBid` (`is_winning`
defaults to `FALSE`, flipped afterwards by `markWinning`). -/
def newBidOf (st : EngineState) (bd : BidData) : Bid :=
  { id := st.nextBidId, userId := bd.userId, amount := bd.amount,
    maxAmount := bd.maxAmount, bidType := bd.bidType, isWinning := false }

/-- The auto-extend block of `placeBid`: if `auto_extend_enabled` and
`(extended_end_time || end_time) - now < auto_extend_minutes * 60 * 1000`,
set `extended_end_time = now + auto_extend_minutes * 60 * 1000`.  The code
reads the end and auto-extend columns from the row fetched at entry; the
price/count update does not touch them, so applying this to the updated row
is the same computation. -/
def applyAutoExtend (now : Int) (a : Auction) : Auction :=
  if a.autoExtendEnabled then
    if a.effectiveEnd - now < (a.autoExtendMinutes : Int) * 60 * 1000 then
      { a with extendedEndTime := some (now + (a.autoExtendMinutes : Int) * 60 * 1000) }
    else a
  else a

/-- The writes `placeBid` commits on acceptance: insert the bid, set
`current_price = amount` and bump `current_bid_count`, flip the winning
flags, then auto-extend. -/
def placeBidApply (now : Int) (st : EngineState) (bd : BidData) : EngineState :=
  { st with
    auction := applyAutoExtend now
      { st.auction with
        currentPrice := bd.amount,
        currentBidCount := st.auction.currentBidCount + 1 },
    bids := markWinning st.nextBidId (st.bids ++ [newBidOf st bd]),
    nextBidId := st.nextBidId + 1 }

/-- `AuctionService.placeBid` (`src/services/auctionService.js` 130–257):
reject unless the auction row has `status = 'live'` (no time check), reject
below `calculateMinBid`, reject when the user lookup finds no active row,
otherwise commit the acceptance writes.  A thrown error rolls the
transaction back, so rejections leave the state unchanged. -/
def placeBid (now : Int) (st : EngineState) (bd : BidData) :
    Except PlaceBidError EngineState :=
  if st.auction.status ≠ AuctionStatus.live then
    .error .auctionNotActive
  else if bd.amount < calculateMinBid st.auction.currentPrice st.auction.bidIncrementPercentage then
    .error (.bidTooLow (calculateMinBid st.auction.currentPrice st.auction.bidIncrementPercentage))
  else
    match getUserDetails st.users bd.userId with
    | none => .error .userNotFound
    | some _ => .ok (placeBidApply now st bd)

/-- The request body of `POST /api/bids` (`req.body` plus `req.user.id`). -/
structure RouteBidRequest where
  auctionId : Nat
  amount : Nat
  maxAmount : Nat
  bidType : BidType
  userId : Nat
deriving DecidableEq

/-- The rejection responses of the REST handler, in the order the handler
produces them. -/
inductive RouteError where
  | validationFailed
  | auctionNotActive
  | auctionEnded
  | bidTooLow (minBidAmount : Nat)
  | userNotFound
  | accountNotActive
  | identityNotVerified
  | alreadyHighestBidder
deriving DecidableEq

/-- `Math.max(100000, Math.floor(currentPrice * 0.05))` — the route's
minimum increment: 5% of the current price floored at 100,000 TZS. -/
def routeMinIncrement (currentPrice : Nat) : Nat :=
  max 100000 (currentPrice * 5 / 100)

/-- `auction.current_price || auction.starting_price` (0 and NULL are
falsy; `current_price` defaults to 0 in the schema). -/
def routeCurrentPrice (a : Auction) : Nat :=
  if a.currentPrice = 0 then a.startingPrice else a.currentPrice

/-- The route's `minBidAmount`: current price plus its minimum increment. -/
def routeMinBidAmount (a : Auction) : Nat :=
  routeCurrentPrice a + routeMinIncrement (routeCurrentPrice a)

/-- `SELECT user_id, amount FROM bids WHERE auction_id = ? ORDER BY amount
DESC LIMIT 1` — a bid of maximal amount (the first-inserted one among
equals; the SQL leaves ties unordered, but accepted amounts strictly
increase so ties do not arise on the bid paths). -/
def highestBid (bids : List Bid) : Option Bid :=
  bids.foldl
    (fun acc b =>
      match acc with
      | none => some b
      | some m => if b.amount > m.amount then some b else acc)
    none

/-- The row the REST handler inserts (`max_amount` is `maxAmount || amount`). -/
def routeNewBid (st : EngineState) (req : RouteBidRequest) : Bid :=
  { id := st.nextBidId, userId := req.userId, amount := req.amount,
    maxAmount := if req.maxAmount = 0 then req.amount else req.maxAmount,
    bidType := req.bidType, isWinning := false }

/-- The writes the REST handler commits on acceptance: insert the bid, set
`current_price = amount`, bump `current_bid_count`, flip the winning flags.
The REST path has no auto-extend block. -/
def routeApplyBid (st : EngineState) (req : RouteBidRequest) : EngineState :=
  { st with
    auction :=
      { st.auction with
        currentPrice := req.amount,
        currentBidCount := st.auction.currentBidCount + 1 },
    bids := markWinning st.nextBidId (st.bids ++ [routeNewBid st req]),
    nextBidId := st.nextBidId + 1 }

/-- The `POST /` handler of `src/backend/routes/bids.js`: express-validator
(`auctionId` ≥ 1, `amount` ≥ 100000), auction lookup `WHERE id = ? AND
status = 'live'`, the `end_time < now` check (the scheduled end, not
`extended_end_time`), the minimum-amount check on
`current_price || starting_price`, the user status and identity checks, the
highest-bidder check, then the acceptance writes. -/
def routePlaceBid (now : Int) (st : EngineState) (req : RouteBidRequest) :
    Except RouteError EngineState :=
  if req.auctionId < 1 ∨ req.amount < 100000 then
    .error .validationFailed
  else if req.auctionId ≠ st.auctionId ∨ st.auction.status ≠ AuctionStatus.live then
    .error .auctionNotActive
  else if st.auction.endTime < now then
    .error .auctionEnded
  else
    if req.amount < routeMinBidAmount st.auction then
      .error (.bidTooLow (routeMinBidAmount st.auction))
    else
      match st.users.find? (fun u => u.id == req.userId) with
      | none => .error .userNotFound
      | some user =>
        if user.status ≠ UserStatus.active then
          .error .accountNotActive
        else if !user.identityVerified then
          .error .identityNotVerified
        else
          match highestBid st.bids with
          | some m =>
            if m.userId = req.userId then .error .alreadyHighestBidder
            else .ok (routeApplyBid st req)
          | none => .ok (routeApplyBid st req)

/-- The error `setupAutoBid` throws
(`'Maximum amount must be greater than 0'`). -/
inductive SetupAutoBidError where
  | maxAmountNotPositive
deriving DecidableEq

/-- `AuctionService.setupAutoBid`: `this.autoBids.set(key, {...})` — replace
the entry keyed by this user in place, or append a fresh one. -/
def setupAutoBid (st : EngineState) (userId maxAmount : Nat) :
    Except SetupAutoBidError EngineState :=
  if maxAmount = 0 then
    .error .maxAmountNotPositive
  else
    if st.autoBids.any (fun ab => ab.userId == userId) then
      .ok { st with autoBids := st.autoBids.map (fun ab => if ab.userId == userId then { userId := userId, maxAmount := maxAmount, currentBid := 0, active := true } else ab) }
    else
      .ok { st with autoBids := st.autoBids ++ [{ userId := userId, maxAmount := maxAmount, currentBid := 0, active := true }] }

/-- Descending insertion by `maxAmount`, inserting after equal keys — the
stable-sort semantics of `.sort((a, b) => b[1].maxAmount - a[1].maxAmount)`. -/
def insertDescByMax (x : AutoBid) : List AutoBid → List AutoBid
  | [] => [x]
  | y :: ys => if x.maxAmount > y.maxAmount then x :: y :: ys else y :: insertDescByMax x ys

/-- Stable descending sort by `maxAmount`. -/
def sortDescByMax : List AutoBid → List AutoBid
  | [] => []
  | x :: xs => insertDescByMax x (sortDescByMax xs)

/-- The `this.autoBids.set(key, autoBid)` update inside the loop: record the
agent's new `currentBid`. -/
def updateAgentBid (ab : AutoBid) (amt : Nat) (st1 : EngineState) : EngineState :=
  { st1 with autoBids := st1.autoBids.map (fun x => if x.userId == ab.userId then { x with currentBid := amt } else x) }

/-- The `for` loop of `processAutoBids`: for each agent, compute
`calculateNextBid` of the running amount; place the bid only when it does
not exceed the agent's `maxAmount` (otherwise skip, leaving the agent
active); a `placeBid` throw is caught by the surrounding `try`, aborting the
rest of the loop while keeping the effects committed so far. -/
def processAutoBidsLoop (now : Int) :
    List AutoBid → EngineState → Nat → EngineState × Nat
  | [], st, amt => (st, amt)
  | ab :: rest, st, amt =>
    if calculateNextBid amt ≤ ab.maxAmount then
      match placeBid now st { userId := ab.userId, amount := calculateNextBid amt, maxAmount := 0, bidType := BidType.auto } with
      | .error _ => (st, amt)
      | .ok st1 =>
        processAutoBidsLoop now rest (updateAgentBid ab (calculateNextBid amt) st1) (calculateNextBid amt)
    else
      processAutoBidsLoop now rest st amt

/-- `AuctionService.processAutoBids(auctionId, newBidAmount)`: filter the
registry to active agents of this auction with `maxAmount > newBidAmount`,
sort descending by `maxAmount`, then run the loop.  (No code path of the
repository ever calls this function.) -/
def processAutoBids (now : Int) (st : EngineState) (newBidAmount : Nat) : EngineState :=
  let agents := sortDescByMax
    (st.autoBids.filter (fun ab => ab.active && newBidAmount < ab.maxAmount))
  (processAutoBidsLoop now agents st newBidAmount).1

/-- `AuctionService.createTransaction(auctionId, bidId)`: look the bid up by
id (a missing row throws, which the function catches itself, inserting
nothing); commission is `Math.ceil(current_price * 5 / 100)`
(`COMMISSION_PERCENTAGE` defaults to 5). -/
def createTransaction (st : EngineState) (bidId : Nat) : EngineState :=
  match st.bids.find? (fun b => b.id == bidId) with
  | none => st
  | some bid =>
    let commissionAmount := (st.auction.currentPrice * 5 + 99) / 100
    { st with transactions := st.transactions ++
        [{ userId := bid.userId, auctionId := st.auctionId, bidId := bidId,
           amount := st.auction.currentPrice, commissionAmount := commissionAmount,
           totalAmount := st.auction.currentPrice + commissionAmount }] }

/-- The result computation of `endAuction`: `no_bids` when
`current_bid_count` is 0, else `sold` (with the winning bid's id) when the
winning bid's amount reaches `reserve_price`, else `reserve_not_met`. -/
def finalizeOutcome (st : EngineState) : AuctionResult × Option Nat :=
  if 0 < st.auction.currentBidCount then
    match getWinningBid st.bids with
    | some wb =>
      if st.auction.reservePrice ≤ wb.amount then (.sold, some wb.id)
      else (.reserveNotMet, none)
    | none => (.reserveNotMet, none)
  else (.noBids, none)

/-- The auction row update of `endAuction`: `SET status = 'ended',
result = ?, winning_bid_id = ?, ended_at = NOW()`. -/
def finalizedAuction (now : Int) (st : EngineState) : Auction :=
  { st.auction with
    status := AuctionStatus.ended,
    result := some (finalizeOutcome st).1,
    winningBidId := (finalizeOutcome st).2,
    endedAt := some now }

/-- `AuctionService.endAuction` (`src/services/auctionService.js` 81–127):
compute the result, write the auction row update, and when sold insert the
settlement transaction (the guard `result === 'sold' && winningBidId` is
JavaScript-falsy for a 0 id).  It performs no check of a previously stored
`result`. -/
def endAuction (now : Int) (st : EngineState) : EngineState :=
  match finalizeOutcome st with
  | (.sold, some wbId) =>
    if wbId = 0 then { st with auction := finalizedAuction now st }
    else createTransaction { st with auction := finalizedAuction now st } wbId
  | _ => { st with auction := finalizedAuction now st }

/-- `AuctionService.startAuction`: `SET status = 'live', start_time = NOW()`. -/
def startAuction (now : Int) (st : EngineState) : EngineState :=
  { st with auction := { st.auction with status := .live, startTime := now } }

/-- One tick of `AuctionService.checkAuctionStatus` for this auction: rows
with status `scheduled` or `live` are fetched, and both transition checks
run against the fetched snapshot (so an auction started this tick is not
also ended this tick). -/
def checkAuctionStatus (now : Int) (st : EngineState) : EngineState :=
  if st.auction.status = AuctionStatus.scheduled ∨ st.auction.status = AuctionStatus.live then
    if st.auction.status = AuctionStatus.live ∧ st.auction.effectiveEnd ≤ now then
      endAuction now
        (if st.auction.status = AuctionStatus.scheduled ∧ st.auction.startTime ≤ now then startAuction now st else st)
    else
      if st.auction.status = AuctionStatus.scheduled ∧ st.auction.startTime ≤ now then startAuction now st else st
  else st

/-- The operations of the engine that can touch an auction's state, as a
step alphabet: clock ticks, the two bid paths (a rejected bid rolls back,
leaving the state unchanged), auto-bid registration, the resolver, and the
direct start/finalize calls. -/
inductive EngineOp where
  | tick (now : Int)
  | bid (now : Int) (bd : BidData)
  | routeBid (now : Int) (req : RouteBidRequest)
  | autoBidSetup (userId maxAmount : Nat)
  | resolveAutoBids (now : Int) (amount : Nat)
  | start (now : Int)
  | finalize (now : Int)

/-- Apply one operation. -/
def applyOp (st : EngineState) : EngineOp → EngineState
  | .tick now => checkAuctionStatus now st
  | .bid now bd =>
    match placeBid now st bd with
    | .ok s => s
    | .error _ => st
  | .routeBid now req =>
    match routePlaceBid now st req with
    | .ok s => s
    | .error _ => st
  | .autoBidSetup u m =>
    match setupAutoBid st u m with
    | .ok s => s
    | .error _ => st
  | .resolveAutoBids now amt => processAutoBids now st amt
  | .start now => startAuction now st
  | .finalize now => endAuction now st

/-- Apply a sequence of operations, oldest first. -/
def applyOps (st : EngineState) : List EngineOp → EngineState
  | [] => st
  | op :: ops => applyOps (applyOp st op) ops

/-- Extract the state an `Except`-valued operation produced, if any. -/
def okState {ε : Type} (r : Except ε EngineState) : Option EngineState :=
  match r with
  | .ok s => some s
  | .error _ => none

/-- `minAcceptable` exactly as the spec words it (§4.2 step 2): modelled
from the spec, for comparison with the code's two formulas:
`minIncrement = max(configuredFloor, ceil(currentPrice ×
bidIncrementPercentage))`; `minAcceptable = currentPrice + minIncrement`. -/
def specMinAcceptable (currentPrice pct floor : Nat) : Nat :=
  currentPrice + max floor ((currentPrice * pct + 99) / 100)

/-! Concrete states used to instantiate the theorems: the spec's worked
example (starting price 350,000,000 TZS, 5% increment, schema defaults for
the auto-extend settings). -/

/-- A live auction at the spec's worked example configuration. -/
def exAuction : Auction :=
  { status := .live, startTime := 0, endTime := 1000000, extendedEndTime := none,
    startingPrice := 350000000, reservePrice := 0, currentPrice := 350000000,
    bidIncrementPercentage := 5, currentBidCount := 0, autoExtendEnabled := false,
    autoExtendMinutes := 5, result := none, winningBidId := none, endedAt := none }

/-- An active, identity-verified bidder. -/
def exUser : User := { id := 7, status := .active, identityVerified := true }

/-- A second active, identity-verified bidder. -/
def exUser5 : User := { id := 5, status := .active, identityVerified := true }

/-- Fresh engine state for the worked example. -/
def stEx : EngineState :=
  { auctionId := 1, auction := exAuction, bids := [], autoBids := [],
    transactions := [], users := [exUser, exUser5], nextBidId := 1 }

/-- Bid data for the accepted 368,000,000 example bid. -/
def bdEx : BidData :=
  { userId := 7, amount := 368000000, maxAmount := 0, bidType := .normal }

/-- Bid data for the rejected 360,000,000 example bid. -/
def bdEx360 : BidData :=
  { userId := 7, amount := 360000000, maxAmount := 0, bidType := .normal }

/-- REST request for the accepted 368,000,000 example bid. -/
def reqEx : RouteBidRequest :=
  { auctionId := 1, amount := 368000000, maxAmount := 0, bidType := .normal, userId := 7 }

/-- REST request for the rejected 360,000,000 example bid. -/
def reqEx360 : RouteBidRequest :=
  { auctionId := 1, amount := 360000000, maxAmount := 0, bidType := .normal, userId := 7 }

/-- The state after the service path accepts `bdEx` from `stEx`. -/
def stExAfterBid : EngineState := (okState (placeBid 0 stEx bdEx)).getD stEx

/-- The state after the REST path accepts `reqEx` from `stEx`. -/
def stExAfterRoute : EngineState := (okState (routePlaceBid 0 stEx reqEx)).getD stEx

/-- Current price 2,000,010: floor and ceiling of the 5% step differ. -/
def stC2 : EngineState :=
  { stEx with auction := { exAuction with currentPrice := 2000010 } }

/-- A bid of 2,100,010 on `stC2`: below the spec's minimum, not the route's. -/
def reqC2 : RouteBidRequest :=
  { auctionId := 1, amount := 2100010, maxAmount := 0, bidType := .normal, userId := 7 }

/-- A live auction whose end time (scheduled and effective) is long past. -/
def stC3 : EngineState :=
  { stEx with auction := { exAuction with endTime := 0 } }

/-- The worked-example auction still in `scheduled` status. -/
def stSched : EngineState :=
  { stEx with auction := { exAuction with status := .scheduled } }

/-- The current winning (and highest) bid, held by user 7. -/
def bidC4 : Bid :=
  { id := 1, userId := 7, amount := 400000000, maxAmount := 0,
    bidType := .normal, isWinning := true }

/-- User 7 already leads at 400,000,000. -/
def stC4 : EngineState :=
  { stEx with
    auction := { exAuction with currentPrice := 400000000, currentBidCount := 1 },
    bids := [bidC4], nextBidId := 2 }

/-- A follow-up bid by the very user who already leads. -/
def bdC4 : BidData :=
  { userId := 7, amount := 450000000, maxAmount := 0, bidType := .normal }

/-- The same follow-up bid through the REST path. -/
def reqC4 : RouteBidRequest :=
  { auctionId := 1, amount := 450000000, maxAmount := 0, bidType := .normal, userId := 7 }

/-- Worked example with auto-extend on (5-minute window and extension). -/
def stC5 : EngineState :=
  { stEx with auction := { exAuction with autoExtendEnabled := true } }

/-- The state after `stC5` accepts `bdEx` at instant 880000 (two minutes
before the 1000000 deadline). -/
def stC5AfterBid : EngineState := (okState (placeBid 880000 stC5 bdEx)).getD stC5

/-- Winning bid of 368,000,000 held by user 7, for finalization. -/
def bidC7 : Bid :=
  { id := 1, userId := 7, amount := 368000000, maxAmount := 0,
    bidType := .normal, isWinning := true }

/-- A live auction ready to finalize as sold (reserve 320,000,000 met). -/
def stC7 : EngineState :=
  { stEx with
    auction := { exAuction with currentPrice := 368000000, currentBidCount := 1, reservePrice := 320000000 },
    bids := [bidC7], nextBidId := 2 }

/-- `stC7` with a reserve of 400,000,000, above the 368,000,000 price. -/
def stC7r : EngineState :=
  { stC7 with auction := { stC7.auction with reservePrice := 400000000 } }

/-- The settlement row finalizing `stC7` inserts. -/
def txC7 : Transaction :=
  { userId := 7, auctionId := 1, bidId := 1, amount := 368000000,
    commissionAmount := 18400000, totalAmount := 386400000 }

/-- `stC7` already finalized: ended, `result = sold`, settlement inserted. -/
def stC8 : EngineState :=
  { stC7 with
    auction := { stC7.auction with status := .ended, result := some .sold, winningBidId := some 1, endedAt := some 1000001 },
    transactions := [txC7] }

/-- One auto-bid agent whose ceiling (1,020,000) exceeds the current price
(1,000,000) but not the next computed step (1,050,000). -/
def stC9 : EngineState :=
  { stEx with
    auction := { exAuction with currentPrice := 1000000 },
    autoBids := [{ userId := 5, maxAmount := 1020000, currentBid := 0, active := true }] }

/-- The same agent with a roomy ceiling of 2,000,000. -/
def stC9b : EngineState :=
  { stC9 with
    autoBids := [{ userId := 5, maxAmount := 2000000, currentBid := 0, active := true }] }

/-- The proxy bid the resolver places for the agent of `stC9b`. -/
def bW : Bid :=
  { id := 1, userId := 5, amount := 1050000, maxAmount := 0,
    bidType := .auto, isWinning := true }

/-- A bid below the absolute 100,000 floor. -/
def reqC10 : RouteBidRequest :=
  { auctionId := 1, amount := 99999, maxAmount := 0, bidType := .normal, userId := 7 }

/-- The two winning-flag updates of `markWinning` compose to one pass: the
bid carrying the fresh id gains the flag, every other bid loses it. -/
def setWinningFlag (bidId : Nat) (b : Bid) : Bid :=
  if b.id = bidId then { b with isWinning := true } else { b with isWinning := false }


/-! Helper lemmas. -/

theorem markWinning_eq_map (bidId : Nat) (l : List Bid) :
    markWinning bidId l = l.map (setWinningFlag bidId) := by
  unfold markWinning
  rw [List.map_map]
  apply List.map_congr_left
  intro b _
  by_cases h : b.id = bidId
  · simp [Function.comp, setWinningFlag, h]
  · simp [Function.comp, setWinningFlag, h]

theorem countP_markWinning (bidId : Nat) (l : List Bid) (nb : Bid)
    (h : ∀ b ∈ l, b.id ≠ bidId) (hnb : nb.id = bidId) :
    (markWinning bidId (l ++ [nb])).countP (fun b => b.isWinning) = 1 := by
  rw [markWinning_eq_map, List.map_append, List.countP_append]
  have h1 : (l.map (setWinningFlag bidId)).countP (fun b => b.isWinning) = 0 := by
    rw [List.countP_eq_zero]
    intro b hb
    obtain ⟨a, ha, rfl⟩ := List.mem_map.mp hb
    simp [setWinningFlag, h a ha]
  have h2 : (([nb].map (setWinningFlag bidId)).countP (fun b => b.isWinning)) = 1 := by
    simp [setWinningFlag, hnb]
  omega

theorem placeBid_ok_eq {now : Int} {st : EngineState} {bd : BidData} {st1 : EngineState}
    (h : placeBid now st bd = Except.ok st1) :
    st1 = placeBidApply now st bd := by
  unfold placeBid at h
  repeat' split at h
  all_goals first
    | exact Except.noConfusion h
    | (injection h with h2; exact h2.symm)

theorem routePlaceBid_ok_eq {now : Int} {st : EngineState} {req : RouteBidRequest}
    {st2 : EngineState} (h : routePlaceBid now st req = Except.ok st2) :
    st2 = routeApplyBid st req := by
  unfold routePlaceBid at h
  repeat' split at h
  all_goals first
    | exact Except.noConfusion h
    | (injection h with h2; exact h2.symm)

theorem placeBid_not_live {now : Int} {st : EngineState} {bd : BidData}
    (h : st.auction.status ≠ AuctionStatus.live) :
    placeBid now st bd = Except.error PlaceBidError.auctionNotActive := by
  unfold placeBid
  rw [if_pos h]

theorem placeBid_too_low {now : Int} {st : EngineState} {bd : BidData}
    (hlive : st.auction.status = AuctionStatus.live)
    (hlow : bd.amount < calculateMinBid st.auction.currentPrice st.auction.bidIncrementPercentage) :
    placeBid now st bd =
      Except.error (PlaceBidError.bidTooLow
        (calculateMinBid st.auction.currentPrice st.auction.bidIncrementPercentage)) := by
  unfold placeBid
  rw [if_neg (by simp [hlive]), if_pos hlow]

theorem route_validation {now : Int} {st : EngineState} {req : RouteBidRequest}
    (h : req.amount < 100000) :
    routePlaceBid now st req = Except.error RouteError.validationFailed := by
  unfold routePlaceBid
  rw [if_pos (Or.inr h)]

theorem route_not_live {now : Int} {st : EngineState} {req : RouteBidRequest}
    (hv1 : 1 ≤ req.auctionId) (hv2 : 100000 ≤ req.amount)
    (h : req.auctionId ≠ st.auctionId ∨ st.auction.status ≠ AuctionStatus.live) :
    routePlaceBid now st req = Except.error RouteError.auctionNotActive := by
  unfold routePlaceBid
  rw [if_neg (by omega), if_pos h]

theorem route_ended {now : Int} {st : EngineState} {req : RouteBidRequest}
    (hv1 : 1 ≤ req.auctionId) (hv2 : 100000 ≤ req.amount)
    (hid : req.auctionId = st.auctionId)
    (hlive : st.auction.status = AuctionStatus.live)
    (h : st.auction.endTime < now) :
    routePlaceBid now st req = Except.error RouteError.auctionEnded := by
  unfold routePlaceBid
  rw [if_neg (by omega), if_neg (by simp [hid, hlive]), if_pos h]

theorem route_too_low {now : Int} {st : EngineState} {req : RouteBidRequest}
    (hv1 : 1 ≤ req.auctionId) (hv2 : 100000 ≤ req.amount)
    (hid : req.auctionId = st.auctionId)
    (hlive : st.auction.status = AuctionStatus.live)
    (htime : now ≤ st.auction.endTime)
    (hlow : req.amount < routeMinBidAmount st.auction) :
    routePlaceBid now st req =
      Except.error (RouteError.bidTooLow (routeMinBidAmount st.auction)) := by
  unfold routePlaceBid
  rw [if_neg (by omega), if_neg (by simp [hid, hlive]), if_neg (by omega), if_pos hlow]

theorem route_already_highest {now : Int} {st : EngineState} {req : RouteBidRequest}
    {u : User} {m : Bid}
    (hv1 : 1 ≤ req.auctionId) (hv2 : 100000 ≤ req.amount)
    (hid : req.auctionId = st.auctionId)
    (hlive : st.auction.status = AuctionStatus.live)
    (htime : now ≤ st.auction.endTime)
    (hamt : routeMinBidAmount st.auction ≤ req.amount)
    (hu : st.users.find? (fun x => x.id == req.userId) = some u)
    (hustat : u.status = UserStatus.active)
    (hver : u.identityVerified = true)
    (hm : highestBid st.bids = some m)
    (hown : m.userId = req.userId) :
    routePlaceBid now st req = Except.error RouteError.alreadyHighestBidder := by
  have h1 : ¬(req.auctionId < 1 ∨ req.amount < 100000) := by omega
  have h2 : ¬(req.auctionId ≠ st.auctionId ∨ st.auction.status ≠ AuctionStatus.live) := by
    simp [hid, hlive]
  have h3 : ¬(st.auction.endTime < now) := by omega
  have h4 : ¬(req.amount < routeMinBidAmount st.auction) := by omega
  simp [routePlaceBid, h1, h2, h3, h4, hu, hustat, hver, hm, hown]
  omega

theorem effectiveEnd_applyAutoExtend (now : Int) (a : Auction) :
    a.effectiveEnd ≤ (applyAutoExtend now a).effectiveEnd := by
  unfold applyAutoExtend
  split
  · split
    · rename_i hcond
      simp only [Auction.effectiveEnd, Option.getD_some] at *
      omega
    · exact le_refl _
  · exact le_refl _

theorem applyAutoExtend_due (now : Int) (a : Auction)
    (hen : a.autoExtendEnabled = true)
    (hdue : a.effectiveEnd - now < (a.autoExtendMinutes : Int) * 60 * 1000) :
    (applyAutoExtend now a).effectiveEnd = now + (a.autoExtendMinutes : Int) * 60 * 1000 := by
  unfold applyAutoExtend
  rw [if_pos hen, if_pos hdue]
  simp [Auction.effectiveEnd]

theorem placeBid_effectiveEnd {now : Int} {st st1 : EngineState} {bd : BidData}
    (h : placeBid now st bd = Except.ok st1) :
    st.auction.effectiveEnd ≤ st1.auction.effectiveEnd := by
  rw [placeBid_ok_eq h]
  exact effectiveEnd_applyAutoExtend now _

theorem createTransaction_auction (st : EngineState) (bidId : Nat) :
    (createTransaction st bidId).auction = st.auction := by
  unfold createTransaction
  split
  · rfl
  · rfl

theorem createTransaction_bids (st : EngineState) (bidId : Nat) :
    (createTransaction st bidId).bids = st.bids := by
  unfold createTransaction
  split
  · rfl
  · rfl

theorem endAuction_auction (now : Int) (st : EngineState) :
    (endAuction now st).auction = finalizedAuction now st := by
  unfold endAuction
  split
  · split
    · rfl
    · rw [createTransaction_auction]
  · rfl

theorem endAuction_bids (now : Int) (st : EngineState) :
    (endAuction now st).bids = st.bids := by
  unfold endAuction
  split
  · split
    · rfl
    · rw [createTransaction_bids]
  · rfl

theorem endAuction_effectiveEnd (now : Int) (st : EngineState) :
    (endAuction now st).auction.effectiveEnd = st.auction.effectiveEnd := by
  rw [endAuction_auction]
  rfl

theorem startAuction_effectiveEnd (now : Int) (st : EngineState) :
    (startAuction now st).auction.effectiveEnd = st.auction.effectiveEnd := rfl

theorem checkAuctionStatus_effectiveEnd (now : Int) (st : EngineState) :
    st.auction.effectiveEnd ≤ (checkAuctionStatus now st).auction.effectiveEnd := by
  unfold checkAuctionStatus
  split
  · split
    · rw [endAuction_effectiveEnd]
      split
      · rw [startAuction_effectiveEnd]
      · exact le_refl _
    · split
      · rw [startAuction_effectiveEnd]
      · exact le_refl _
  · exact le_refl _

theorem setupAutoBid_auction {st : EngineState} {u m : Nat} {st1 : EngineState}
    (h : setupAutoBid st u m = Except.ok st1) : st1.auction = st.auction := by
  unfold setupAutoBid at h
  repeat' split at h
  all_goals first
    | exact Except.noConfusion h
    | (injection h with h2; rw [← h2])

theorem routeApplyBid_effectiveEnd (st : EngineState) (req : RouteBidRequest) :
    (routeApplyBid st req).auction.effectiveEnd = st.auction.effectiveEnd := rfl

theorem processAutoBidsLoop_effectiveEnd (now : Int) (agents : List AutoBid) :
    ∀ (st : EngineState) (amt : Nat),
      st.auction.effectiveEnd ≤ ((processAutoBidsLoop now agents st amt).1).auction.effectiveEnd := by
  induction agents with
  | nil => intro st amt; exact le_refl _
  | cons ab rest ih =>
    intro st amt
    unfold processAutoBidsLoop
    split
    · split
      · exact le_refl _
      · rename_i st1 hok
        exact le_trans (placeBid_effectiveEnd hok) (ih _ _)
    · exact ih _ _

theorem applyOp_effectiveEnd (st : EngineState) (op : EngineOp) :
    st.auction.effectiveEnd ≤ (applyOp st op).auction.effectiveEnd := by
  cases op with
  | tick now => exact checkAuctionStatus_effectiveEnd now st
  | bid now bd =>
    simp only [applyOp]
    split
    · rename_i s h
      exact placeBid_effectiveEnd h
    · exact le_refl _
  | routeBid now req =>
    simp only [applyOp]
    split
    · rename_i s h
      rw [routePlaceBid_ok_eq h]
      exact le_of_eq (routeApplyBid_effectiveEnd st req).symm
    · exact le_refl _
  | autoBidSetup u m =>
    simp only [applyOp]
    split
    · rename_i s h
      rw [setupAutoBid_auction h]
    · exact le_refl _
  | resolveAutoBids now amt => exact processAutoBidsLoop_effectiveEnd now _ st amt
  | start now => exact le_of_eq (startAuction_effectiveEnd now st).symm
  | finalize now => exact le_of_eq (endAuction_effectiveEnd now st).symm


theorem setWinningFlag_fields (bidId : Nat) (b : Bid) :
    (setWinningFlag bidId b).id = b.id ∧ (setWinningFlag bidId b).userId = b.userId ∧
    (setWinningFlag bidId b).amount = b.amount := by
  unfold setWinningFlag
  split
  · exact ⟨rfl, rfl, rfl⟩
  · exact ⟨rfl, rfl, rfl⟩

theorem mem_markWinning {b : Bid} {bidId : Nat} {l : List Bid}
    (h : b ∈ markWinning bidId l) :
    ∃ b0 ∈ l, b.id = b0.id ∧ b.userId = b0.userId ∧ b.amount = b0.amount := by
  rw [markWinning_eq_map] at h
  obtain ⟨b0, hb0, rfl⟩ := List.mem_map.mp h
  exact ⟨b0, hb0, (setWinningFlag_fields bidId b0).1,
    (setWinningFlag_fields bidId b0).2.1, (setWinningFlag_fields bidId b0).2.2⟩

theorem placeBid_bids_shape {now : Int} {st st1 : EngineState} {bd : BidData} {b : Bid}
    (h : placeBid now st bd = Except.ok st1) (hb : b ∈ st1.bids) :
    (∃ b0 ∈ st.bids, b.id = b0.id ∧ b.userId = b0.userId ∧ b.amount = b0.amount) ∨
    (b.userId = bd.userId ∧ b.amount = bd.amount) := by
  rw [placeBid_ok_eq h] at hb
  have hb2 : b ∈ markWinning st.nextBidId (st.bids ++ [newBidOf st bd]) := hb
  obtain ⟨b0, hb0, h1, h2, h3⟩ := mem_markWinning hb2
  rcases List.mem_append.mp hb0 with hL | hR
  · exact Or.inl ⟨b0, hL, h1, h2, h3⟩
  · have hb3 : b0 = newBidOf st bd := by simpa using hR
    subst hb3
    exact Or.inr ⟨h2, h3⟩

theorem processAutoBidsLoop_bids (now : Int) (agents : List AutoBid) :
    ∀ (st : EngineState) (amt : Nat) (b : Bid),
      b ∈ ((processAutoBidsLoop now agents st amt).1).bids →
      (∃ b0 ∈ st.bids, b.id = b0.id ∧ b.userId = b0.userId ∧ b.amount = b0.amount) ∨
      (∃ ab ∈ agents, b.userId = ab.userId ∧ b.amount ≤ ab.maxAmount) := by
  induction agents with
  | nil =>
    intro st amt b hb
    exact Or.inl ⟨b, hb, rfl, rfl, rfl⟩
  | cons ab rest ih =>
    intro st amt b hb
    unfold processAutoBidsLoop at hb
    split at hb
    · rename_i hle
      split at hb
      · exact Or.inl ⟨b, hb, rfl, rfl, rfl⟩
      · rename_i st1 hok
        rcases ih _ _ _ hb with ⟨b0, hb0, h1, h2, h3⟩ | ⟨ab2, hab2, h4, h5⟩
        · have hb0a : b0 ∈ st1.bids := hb0
          rcases placeBid_bids_shape hok hb0a with ⟨b1, hb1, g1, g2, g3⟩ | ⟨g2, g3⟩
          · exact Or.inl ⟨b1, hb1, h1.trans g1, h2.trans g2, h3.trans g3⟩
          · refine Or.inr ⟨ab, List.mem_cons_self ab rest, h2.trans g2, ?_⟩
            rw [h3, g3]
            exact hle
        · exact Or.inr ⟨ab2, List.mem_cons_of_mem ab hab2, h4, h5⟩
    · rcases ih _ _ _ hb with h | ⟨ab2, hab2, h4, h5⟩
      · exact Or.inl h
      · exact Or.inr ⟨ab2, List.mem_cons_of_mem ab hab2, h4, h5⟩

theorem mem_insertDescByMax {y x : AutoBid} {l : List AutoBid}
    (h : y ∈ insertDescByMax x l) : y = x ∨ y ∈ l := by
  induction l with
  | nil =>
    unfold insertDescByMax at h
    exact Or.inl (by simpa using h)
  | cons z zs ih =>
    unfold insertDescByMax at h
    split at h
    · rcases List.mem_cons.mp h with h1 | h2
      · exact Or.inl h1
      · exact Or.inr h2
    · rcases List.mem_cons.mp h with h1 | h2
      · exact Or.inr (h1 ▸ List.mem_cons_self z zs)
      · rcases ih h2 with h3 | h4
        · exact Or.inl h3
        · exact Or.inr (List.mem_cons_of_mem z h4)

theorem mem_sortDescByMax {y : AutoBid} {l : List AutoBid}
    (h : y ∈ sortDescByMax l) : y ∈ l := by
  induction l with
  | nil =>
    unfold sortDescByMax at h
    exact h
  | cons z zs ih =>
    unfold sortDescByMax at h
    rcases mem_insertDescByMax h with h1 | h2
    · exact h1 ▸ List.mem_cons_self z zs
    · exact List.mem_cons_of_mem z (ih h2)

theorem finalizeOutcome_eq_of_winning {st : EngineState} {wb : Bid}
    (hcnt : 0 < st.auction.currentBidCount)
    (hwb : getWinningBid st.bids = some wb) :
    finalizeOutcome st =
      if st.auction.reservePrice ≤ wb.amount then (AuctionResult.sold, some wb.id)
      else (AuctionResult.reserveNotMet, none) := by
  unfold finalizeOutcome
  rw [if_pos hcnt, hwb]

theorem createTransaction_found {st : EngineState} {bidId : Nat} {b : Bid}
    (h : st.bids.find? (fun x => x.id == bidId) = some b) :
    createTransaction st bidId = { st with transactions := st.transactions ++
      [{ userId := b.userId, auctionId := st.auctionId, bidId := bidId, amount := st.auction.currentPrice, commissionAmount := (st.auction.currentPrice * 5 + 99) / 100, totalAmount := st.auction.currentPrice + (st.auction.currentPrice * 5 + 99) / 100 }] } := by
  unfold createTransaction
  rw [h]

/-! Claim theorems. -/

/-- C1: after either bid-acceptance operation completes, exactly one bid row
of the auction carries `isWinning = true` — each acceptance clears the flag
on every other bid of the auction and sets it on the newly inserted bid —
and an auction whose bid list is empty has zero winning rows.  (The fresh-id
hypothesis is the `AUTO_INCREMENT` discipline of the `bids` table.) -/
theorem C1_single_winning_flag (now : Int) (st st1 st2 : EngineState)
    (bd : BidData) (req : RouteBidRequest)
    (hfresh : ∀ b ∈ st.bids, b.id ≠ st.nextBidId)
    (h1 : placeBid now st bd = Except.ok st1)
    (h2 : routePlaceBid now st req = Except.ok st2) :
    st1.bids.countP (fun b => b.isWinning) = 1 ∧
    st2.bids.countP (fun b => b.isWinning) = 1 ∧
    List.countP (fun b => b.isWinning) ([] : List Bid) = 0 := by
  refine ⟨?_, ?_, rfl⟩
  · rw [placeBid_ok_eq h1]
    exact countP_markWinning st.nextBidId st.bids (newBidOf st bd) hfresh rfl
  · rw [routePlaceBid_ok_eq h2]
    exact countP_markWinning st.nextBidId st.bids (routeNewBid st req) hfresh rfl

/-- C1 witness: both acceptance paths at the worked example leave exactly
one winning bid. -/
theorem C1_single_winning_flag_witness :
    stExAfterBid.bids.countP (fun b => b.isWinning) = 1 ∧
    stExAfterRoute.bids.countP (fun b => b.isWinning) = 1 ∧
    List.countP (fun b => b.isWinning) ([] : List Bid) = 0 :=
  C1_single_winning_flag 0 stEx stExAfterBid stExAfterRoute bdEx reqEx
    (by decide) (by rfl) (by rfl)

/-- C2 counterexample: at current price 2,000,010 the claim's formula
`currentPrice + max(floor, ceil(price·5%))` demands 2,100,011, yet the REST
handler computes its increment with `Math.floor` and accepts a bid of
2,100,010 instead of rejecting it as `BidTooLow`. -/
theorem C2_counterexample :
    2100010 < specMinAcceptable 2000010 5 100000 ∧
    stC2.auction.currentPrice = 2000010 ∧
    reqC2.amount = 2100010 ∧
    (okState (routePlaceBid 0 stC2 reqC2)).isSome = true := by
  refine ⟨by decide, rfl, rfl, by decide⟩

/-- C2 amended: the service path's minimum is `currentPrice +
ceil(currentPrice·pct/100)` with no configured floor, the REST path's is
`currentPrice + max(100000, floor(currentPrice·5/100))` (floor, not
ceiling); a candidate below the respective minimum is rejected `BidTooLow`,
and the worked 350,000,000 / 5% example behaves exactly as the spec states
on both paths (360,000,000 rejected with minimum 367,500,000; 368,000,000
accepted and becoming `currentPrice`). -/
theorem C2_amended (now : Int) (st : EngineState) (bd : BidData) (req : RouteBidRequest)
    (hlive : st.auction.status = AuctionStatus.live)
    (hlow : bd.amount < calculateMinBid st.auction.currentPrice st.auction.bidIncrementPercentage)
    (hv1 : 1 ≤ req.auctionId) (hv2 : 100000 ≤ req.amount)
    (hid : req.auctionId = st.auctionId)
    (htime : now ≤ st.auction.endTime)
    (hlow2 : req.amount < routeMinBidAmount st.auction) :
    placeBid now st bd = Except.error (PlaceBidError.bidTooLow (calculateMinBid st.auction.currentPrice st.auction.bidIncrementPercentage)) ∧
    routePlaceBid now st req = Except.error (RouteError.bidTooLow (routeMinBidAmount st.auction)) ∧
    calculateMinBid 350000000 5 = 367500000 ∧
    routeMinBidAmount exAuction = 367500000 ∧
    placeBid 0 stEx bdEx360 = Except.error (PlaceBidError.bidTooLow 367500000) ∧
    (okState (placeBid 0 stEx bdEx)).map (fun s => s.auction.currentPrice) = some 368000000 ∧
    routePlaceBid 0 stEx reqEx360 = Except.error (RouteError.bidTooLow 367500000) ∧
    (okState (routePlaceBid 0 stEx reqEx)).map (fun s => s.auction.currentPrice) = some 368000000 :=
  ⟨placeBid_too_low hlive hlow, route_too_low hv1 hv2 hid hlive htime hlow2,
   by decide, by decide, by rfl, by decide, by rfl, by decide⟩

/-- C2 amended witness: the general rejection conjuncts instantiated at the
worked example. -/
theorem C2_amended_witness :
    placeBid 0 stEx bdEx360 = Except.error (PlaceBidError.bidTooLow (calculateMinBid stEx.auction.currentPrice stEx.auction.bidIncrementPercentage)) ∧
    routePlaceBid 0 stEx reqEx360 = Except.error (RouteError.bidTooLow (routeMinBidAmount stEx.auction)) :=
  ⟨(C2_amended 0 stEx bdEx360 reqEx360 (by decide) (by decide) (by decide) (by decide)
      (by decide) (by decide) (by decide)).1,
   (C2_amended 0 stEx bdEx360 reqEx360 (by decide) (by decide) (by decide) (by decide)
      (by decide) (by decide) (by decide)).2.1⟩

/-- C3 counterexample: a live auction whose effective end time is long past
still accepts a service-path bid (a bid row is inserted), although the
claim requires rejection with kind `AuctionNotActive` and no state change:
`placeBid` checks only `status`, never the clock. -/
theorem C3_counterexample :
    stC3.auction.status = AuctionStatus.live ∧
    stC3.auction.effectiveEnd < 1000000 ∧
    (okState (placeBid 1000000 stC3 bdEx)).map (fun s => s.bids.length) = some 1 := by
  refine ⟨rfl, by decide, by decide⟩

/-- C3 amended: the service path rejects (as `AuctionNotActive`) exactly on
`status ≠ live` and performs no time check at all, so a bid arriving after
`effectiveEndTime` but before the clock tick is accepted; the REST path
rejects on `status ≠ live` and additionally when `now` is past the
*scheduled* `end_time` — the extended end time is never consulted there. -/
theorem C3_amended (now : Int) (st : EngineState) (bd : BidData) (req : RouteBidRequest)
    (hv1 : 1 ≤ req.auctionId) (hv2 : 100000 ≤ req.amount) (hid : req.auctionId = st.auctionId) :
    (st.auction.status ≠ AuctionStatus.live →
      placeBid now st bd = Except.error PlaceBidError.auctionNotActive) ∧
    (st.auction.status ≠ AuctionStatus.live →
      routePlaceBid now st req = Except.error RouteError.auctionNotActive) ∧
    (st.auction.status = AuctionStatus.live → st.auction.endTime < now →
      routePlaceBid now st req = Except.error RouteError.auctionEnded) :=
  ⟨fun h => placeBid_not_live h,
   fun h => route_not_live hv1 hv2 (Or.inr h),
   fun h1 h2 => route_ended hv1 hv2 hid h1 h2⟩

/-- C3 amended witness: a scheduled auction rejects both paths as not
active; a live auction past its scheduled end rejects the REST path. -/
theorem C3_amended_witness :
    placeBid 0 stSched bdEx = Except.error PlaceBidError.auctionNotActive ∧
    routePlaceBid 0 stSched reqEx = Except.error RouteError.auctionNotActive ∧
    routePlaceBid 1000000 stC3 reqEx = Except.error RouteError.auctionEnded :=
  ⟨(C3_amended 0 stSched bdEx reqEx (by decide) (by decide) (by decide)).1 (by decide),
   (C3_amended 0 stSched bdEx reqEx (by decide) (by decide) (by decide)).2.1 (by decide),
   (C3_amended 1000000 stC3 bdEx reqEx (by decide) (by decide) (by decide)).2.2 (by decide) (by decide)⟩

/-- C4 counterexample: user 7 already holds the winning (and highest) bid,
yet the service path accepts a further bid from user 7 and records it —
`placeBid` has no `AlreadyHighestBidder` check. -/
theorem C4_counterexample :
    (getWinningBid stC4.bids).map (fun b => b.userId) = some 7 ∧
    (highestBid stC4.bids).map (fun b => b.userId) = some 7 ∧
    bdC4.userId = 7 ∧
    (okState (placeBid 0 stC4 bdC4)).map (fun s => s.bids.length) = some 2 := by
  refine ⟨by decide, by decide, rfl, by decide⟩

/-- C4 amended: only the REST path rejects a submitter who already holds
the highest-amount bid (which is the winning bid in reachable states) with
`AlreadyHighestBidder` and records nothing; the service `placeBid` path
performs no such check. -/
theorem C4_amended (now : Int) (st : EngineState) (req : RouteBidRequest) (u : User) (m : Bid)
    (hv1 : 1 ≤ req.auctionId) (hv2 : 100000 ≤ req.amount)
    (hid : req.auctionId = st.auctionId)
    (hlive : st.auction.status = AuctionStatus.live)
    (htime : now ≤ st.auction.endTime)
    (hamt : routeMinBidAmount st.auction ≤ req.amount)
    (hu : st.users.find? (fun x => x.id == req.userId) = some u)
    (hustat : u.status = UserStatus.active)
    (hver : u.identityVerified = true)
    (hm : highestBid st.bids = some m)
    (hown : m.userId = req.userId) :
    routePlaceBid now st req = Except.error RouteError.alreadyHighestBidder ∧
    okState (routePlaceBid now st req) = none := by
  have h := route_already_highest hv1 hv2 hid hlive htime hamt hu hustat hver hm hown
  exact ⟨h, by rw [h]; rfl⟩

/-- C4 amended witness: the REST path rejects leader 7's follow-up bid. -/
theorem C4_amended_witness :
    routePlaceBid 0 stC4 reqC4 = Except.error RouteError.alreadyHighestBidder ∧
    okState (routePlaceBid 0 stC4 reqC4) = none :=
  C4_amended 0 stC4 reqC4 exUser bidC4 (by decide) (by decide) (by decide) (by decide)
    (by decide) (by decide) (by decide) (by decide) (by decide) (by decide) (by decide)

/-- C5: when an accepted service-path bid lands inside the auto-extend
window of an auto-extend-enabled auction, the effective end time becomes
the acceptance instant plus the extension (`auto_extend_minutes`, which
serves as both window and extension) — measured from acceptance, not from
the previous deadline. -/
theorem C5_auto_extend (now : Int) (st st1 : EngineState) (bd : BidData)
    (hok : placeBid now st bd = Except.ok st1)
    (hen : st.auction.autoExtendEnabled = true)
    (hdue : st.auction.effectiveEnd - now < (st.auction.autoExtendMinutes : Int) * 60 * 1000) :
    st1.auction.effectiveEnd = now + (st.auction.autoExtendMinutes : Int) * 60 * 1000 := by
  rw [placeBid_ok_eq hok]
  exact applyAutoExtend_due now _ hen hdue

/-- C5 witness: a bid at instant 880000, two minutes before the 1000000
deadline with a 5-minute window, moves the effective end to 880000 plus
exactly five minutes. -/
theorem C5_auto_extend_witness :
    stC5AfterBid.auction.effectiveEnd = 880000 + (stC5.auction.autoExtendMinutes : Int) * 60 * 1000 :=
  C5_auto_extend 880000 stC5 stC5AfterBid bdEx (by rfl) (by decide) (by decide)

/-- C6: over every sequence of engine operations, the auction's effective
end time never decreases; and an auction whose `extended_end_time` is NULL
has its effective end equal to the scheduled `end_time` (its value at
creation). -/
theorem C6_effectiveEnd_monotone :
    (∀ (ops : List EngineOp) (st : EngineState),
      st.auction.effectiveEnd ≤ (applyOps st ops).auction.effectiveEnd) ∧
    (∀ a : Auction, ({ a with extendedEndTime := none } : Auction).effectiveEnd = a.endTime) := by
  constructor
  · intro ops
    induction ops with
    | nil => intro st; exact le_refl _
    | cons op rest ih =>
      intro st
      exact le_trans (applyOp_effectiveEnd st op) (ih (applyOp st op))
  · intro a
    rfl

/-- C7: finalization on the live→ended transition computes `no_bids` for a
bid count of zero (no further assumption needed); `reserve_not_met` when
the final price is below a positive reserve, issuing no settlement and
leaving the bid rows (hence the winning flag) untouched; and `sold`
otherwise, emitting exactly one settlement row carrying the auction id,
the winning bid id and the final price.  The winning-bid facts (its amount
is the current price, its `AUTO_INCREMENT` id is positive and looked up by
id — reachable-state facts) hypothesise only the two conjuncts that are
about a winning bid. -/
theorem C7_finalization (now : Int) (st : EngineState) (wb : Bid) :
    (st.auction.currentBidCount = 0 →
      (endAuction now st).auction.result = some AuctionResult.noBids ∧
      (endAuction now st).transactions = st.transactions) ∧
    (getWinningBid st.bids = some wb →
      wb.amount = st.auction.currentPrice →
      0 < st.auction.currentBidCount → 0 < st.auction.reservePrice →
      st.auction.currentPrice < st.auction.reservePrice →
      (endAuction now st).auction.result = some AuctionResult.reserveNotMet ∧
      (endAuction now st).transactions = st.transactions ∧
      (endAuction now st).bids = st.bids) ∧
    (getWinningBid st.bids = some wb →
      wb.amount = st.auction.currentPrice →
      wb.id ≠ 0 →
      st.bids.find? (fun x => x.id == wb.id) = some wb →
      0 < st.auction.currentBidCount → st.auction.reservePrice ≤ st.auction.currentPrice →
      (endAuction now st).auction.result = some AuctionResult.sold ∧
      (endAuction now st).auction.winningBidId = some wb.id ∧
      (endAuction now st).bids = st.bids ∧
      (endAuction now st).transactions = st.transactions ++ [{ userId := wb.userId, auctionId := st.auctionId, bidId := wb.id, amount := st.auction.currentPrice, commissionAmount := (st.auction.currentPrice * 5 + 99) / 100, totalAmount := st.auction.currentPrice + (st.auction.currentPrice * 5 + 99) / 100 }]) := by
  refine ⟨?_, ?_, ?_⟩
  · intro hz
    have hout : finalizeOutcome st = (AuctionResult.noBids, none) := by
      unfold finalizeOutcome
      rw [if_neg (by omega)]
    have hend : endAuction now st = { st with auction := finalizedAuction now st } := by
      unfold endAuction
      rw [hout]
    rw [hend]
    constructor
    · show (finalizedAuction now st).result = some AuctionResult.noBids
      unfold finalizedAuction
      rw [hout]
    · rfl
  · intro hwb hamt hc hr hlow
    have hout : finalizeOutcome st = (AuctionResult.reserveNotMet, none) := by
      rw [finalizeOutcome_eq_of_winning hc hwb, if_neg (by omega)]
    have hend : endAuction now st = { st with auction := finalizedAuction now st } := by
      unfold endAuction
      rw [hout]
    rw [hend]
    refine ⟨?_, rfl, rfl⟩
    show (finalizedAuction now st).result = some AuctionResult.reserveNotMet
    unfold finalizedAuction
    rw [hout]
  · intro hwb hamt hid0 hfind hc hge
    have hout : finalizeOutcome st = (AuctionResult.sold, some wb.id) := by
      rw [finalizeOutcome_eq_of_winning hc hwb, if_pos (by omega)]
    have hfind2 : (({ st with auction := finalizedAuction now st } : EngineState)).bids.find? (fun x => x.id == wb.id) = some wb := hfind
    have hend : endAuction now st = createTransaction { st with auction := finalizedAuction now st } wb.id := by
      unfold endAuction
      rw [hout]
      exact if_neg hid0
    rw [hend, createTransaction_found hfind2]
    refine ⟨?_, ?_, rfl, ?_⟩
    · show (finalizedAuction now st).result = some AuctionResult.sold
      unfold finalizedAuction
      rw [hout]
    · show (finalizedAuction now st).winningBidId = some wb.id
      unfold finalizedAuction
      rw [hout]
    · rfl

/-- C7 witness: all three branches at concrete states — the bid-less `stEx`
finalizes as `no_bids` with no settlement; `stC7r` (price 368,000,000
against reserve 400,000,000) finalizes as `reserve_not_met` with no
settlement and bids untouched; `stC7` (reserve 320,000,000) finalizes as
`sold` with exactly the one settlement row. -/
theorem C7_finalization_witness :
    ((endAuction 5 stEx).auction.result = some AuctionResult.noBids ∧
      (endAuction 5 stEx).transactions = stEx.transactions) ∧
    ((endAuction 5 stC7r).auction.result = some AuctionResult.reserveNotMet ∧
      (endAuction 5 stC7r).transactions = stC7r.transactions ∧
      (endAuction 5 stC7r).bids = stC7r.bids) ∧
    ((endAuction 5 stC7).auction.result = some AuctionResult.sold ∧
      (endAuction 5 stC7).auction.winningBidId = some bidC7.id ∧
      (endAuction 5 stC7).bids = stC7.bids ∧
      (endAuction 5 stC7).transactions = stC7.transactions ++ [{ userId := bidC7.userId, auctionId := stC7.auctionId, bidId := bidC7.id, amount := stC7.auction.currentPrice, commissionAmount := (stC7.auction.currentPrice * 5 + 99) / 100, totalAmount := stC7.auction.currentPrice + (stC7.auction.currentPrice * 5 + 99) / 100 }]) :=
  ⟨(C7_finalization 5 stEx bidC7).1 (by decide),
   (C7_finalization 5 stC7r bidC7).2.1 (by decide) (by decide) (by decide) (by decide) (by decide),
   (C7_finalization 5 stC7 bidC7).2.2 (by decide) (by decide) (by decide) (by decide) (by decide) (by decide)⟩

/-- C8 counterexample: `stC8` is already finalized (`result ≠ null`,
one settlement stored), yet invoking the finalizer a second time inserts a
second settlement transaction and changes observable state — `endAuction`
performs no `result != null` check. -/
theorem C8_counterexample :
    stC8.auction.result ≠ none ∧
    stC8.transactions.length = 1 ∧
    (endAuction 2000000 stC8).transactions.length = 2 ∧
    endAuction 2000000 stC8 ≠ stC8 := by
  refine ⟨by decide, rfl, by decide, by decide⟩

/-- C8 amended: the finalizer itself is not idempotent, but the clock never
re-fires it: `checkAuctionStatus` selects only scheduled/live auctions, so
it is a no-op on an ended auction, and applying the clock transition twice
from a due live auction equals applying it once (hence one settlement in
total along the clock path). -/
theorem C8_amended (now now2 : Int) (st : EngineState) :
    (st.auction.status = AuctionStatus.ended → checkAuctionStatus now2 st = st) ∧
    (st.auction.status = AuctionStatus.live → st.auction.effectiveEnd ≤ now →
      checkAuctionStatus now2 (checkAuctionStatus now st) = checkAuctionStatus now st) := by
  have hended : ∀ (t : Int) (s : EngineState), s.auction.status = AuctionStatus.ended →
      checkAuctionStatus t s = s := by
    intro t s h
    unfold checkAuctionStatus
    rw [if_neg (by simp [h])]
  constructor
  · exact hended now2 st
  · intro hlive hdue
    have h1 : checkAuctionStatus now st = endAuction now st := by
      unfold checkAuctionStatus
      rw [if_pos (Or.inr hlive), if_pos ⟨hlive, hdue⟩, if_neg (by simp [hlive])]
    rw [h1]
    refine hended now2 _ ?_
    rw [endAuction_auction]
    rfl

/-- C8 amended witness: the clock is a no-op on the finalized `stC8`, and
the clock transition from the due live `stC7` is idempotent. -/
theorem C8_amended_witness :
    checkAuctionStatus 9 stC8 = stC8 ∧
    checkAuctionStatus 9 (checkAuctionStatus 2000000 stC7) = checkAuctionStatus 2000000 stC7 :=
  ⟨(C8_amended 0 9 stC8).1 (by decide),
   (C8_amended 2000000 9 stC7).2 (by decide) (by decide)⟩

/-- C9 counterexample: an active agent's ceiling (1,020,000) exceeds the
new price (1,000,000), yet the resolver places no counter-bid at all
(because the computed 5% step, 1,050,000, exceeds the ceiling; the code
skips instead of capping) and does not even deactivate the agent. -/
theorem C9_counterexample :
    stC9.autoBids.any (fun ab => ab.active && decide (stC9.auction.currentPrice < ab.maxAmount)) = true ∧
    (processAutoBids 0 stC9 stC9.auction.currentPrice).bids = stC9.bids ∧
    (processAutoBids 0 stC9 stC9.auction.currentPrice).autoBids = stC9.autoBids := by
  refine ⟨by decide, by decide, by decide⟩

/-- C9 amended: every bid present after a resolver pass either coincides
(in id, bidder and amount) with a pre-existing bid, or was placed for a
registered agent and never exceeds that agent's ceiling; when the computed
step exceeds the ceiling the resolver places no bid (it does not cap), and
no code path of the repository invokes the resolver. -/
theorem C9_amended (now : Int) (st : EngineState) (amt : Nat) (b : Bid)
    (hb : b ∈ (processAutoBids now st amt).bids) :
    (st.bids.any (fun b0 => b.id == b0.id && b.userId == b0.userId && b.amount == b0.amount) ||
      st.autoBids.any (fun ab => b.userId == ab.userId && decide (b.amount ≤ ab.maxAmount))) = true := by
  unfold processAutoBids at hb
  rcases processAutoBidsLoop_bids now _ st amt b hb with ⟨b0, hb0, h1, h2, h3⟩ | ⟨ab, hab, h4, h5⟩
  · have hany : st.bids.any (fun b0 => b.id == b0.id && b.userId == b0.userId && b.amount == b0.amount) = true := by
      rw [List.any_eq_true]
      refine ⟨b0, hb0, ?_⟩
      simp [h1, h2, h3]
    rw [hany, Bool.true_or]
  · have hmem : ab ∈ st.autoBids := (List.mem_filter.mp (mem_sortDescByMax hab)).1
    have hany : st.autoBids.any (fun ab2 => b.userId == ab2.userId && decide (b.amount ≤ ab2.maxAmount)) = true := by
      rw [List.any_eq_true]
      refine ⟨ab, hmem, ?_⟩
      simp [h4, h5]
    rw [hany, Bool.or_true]

/-- C9 amended witness: with a 2,000,000 ceiling the resolver does place a
proxy bid (1,050,000), and it satisfies the ceiling bound. -/
theorem C9_amended_witness :
    bW ∈ (processAutoBids 0 stC9b 1000000).bids ∧
    (stC9b.bids.any (fun b0 => bW.id == b0.id && bW.userId == b0.userId && bW.amount == b0.amount) ||
      stC9b.autoBids.any (fun ab => bW.userId == ab.userId && decide (bW.amount ≤ ab.maxAmount))) = true :=
  ⟨by decide, C9_amended 0 stC9b 1000000 bW (by decide)⟩

/-- C10: a REST bid below 100,000 TZS is rejected by the express-validator
chain with the same outcome whatever the engine state (no auction state is
consulted), and the route's minimum increment is never below the absolute
100,000 floor. -/
theorem C10_absolute_floor (now : Int) (st st2 : EngineState) (req : RouteBidRequest) (cp : Nat)
    (h : req.amount < 100000) :
    routePlaceBid now st req = Except.error RouteError.validationFailed ∧
    routePlaceBid now st2 req = Except.error RouteError.validationFailed ∧
    100000 ≤ routeMinIncrement cp :=
  ⟨route_validation h, route_validation h, le_max_left _ _⟩

/-- C10 witness: a 99,999 bid is rejected identically at two unrelated
states, and the increment floor holds at the example price. -/
theorem C10_absolute_floor_witness :
    routePlaceBid 0 stEx reqC10 = Except.error RouteError.validationFailed ∧
    routePlaceBid 0 stC4 reqC10 = Except.error RouteError.validationFailed ∧
    100000 ≤ routeMinIncrement 350000000 :=
  C10_absolute_floor 0 stEx stC4 reqC10 350000000 (by decide)
